import Mathlib

/-!
# Locus backend: request handlers over a relational store

Shallow embedding of `src/backend/server.js`.

* The PostgreSQL database is an explicit `Store` value: the rows of the two
  tables of `initDB` in insertion order, and the `SERIAL` counter of
  `locations.id`.  The column types and constraints declared by `initDB` are
  part of the store operations: a `TEXT` value holds no U+0000, a `BIGINT`
  value lies in the 64-bit range, `sessions.id` and `locations.id` are primary
  keys, `locations.session_id` references `sessions(id)`.
* One request is handled at a time: a handler is a function from the store
  before the request to the response and the store after it.
* `Date.now()` is an argument of the handler that calls it, one argument per
  call site.
* A JavaScript Number with an integer value is the `Int` of that value, and
  `Infinity` is `2 ^ 1024`.  An integer literal of the JSON body becomes the
  nearest double (`jsonNumber`), the sum of line 62 is the double sum
  (`jsAdd`), and the database driver sends a Number as the text of
  `Number.prototype.toString` (`numberText`) and returns a `BIGINT` column as
  the string of its decimal digits.
* `latitude` and `longitude` are only passed through by the handlers.  They
  are values of a type `κ`; what a `REAL` column makes of them is the
  `RealColumn` structure on `κ`, fixed for integer coordinates and arbitrary in
  the theorems.
* Request bodies are well typed: `deviceId` and `sessionId` are strings, an
  optional field is an `Option`.
-/

namespace Locus

/-! ## Numbers of JavaScript and of the database columns -/

/-- Number of binary digits of `n`; the first argument bounds the number of halvings. -/
def bitLengthAux : Nat → Nat → Nat
  | 0, _ => 0
  | fuel + 1, n => if n = 0 then 0 else bitLengthAux fuel (n / 2) + 1

/-- Number of binary digits of `n`. -/
def bitLength (n : Nat) : Nat := bitLengthAux n n

/-- The natural number with at most `p` significant binary digits nearest to `n`, ties
to the even significand: IEEE 754 rounding of an integer, exponent range apart. -/
def roundBits (p n : Nat) : Nat :=
  if n < 2 ^ p then n
  else
    let e := bitLength n - p
    let q := n / 2 ^ e
    let r := n % 2 ^ e
    if 2 * r < 2 ^ e then q * 2 ^ e
    else if 2 * r = 2 ^ e ∧ q % 2 = 0 then q * 2 ^ e
    else (q + 1) * 2 ^ e

/-- Search of `shortestDecimal` from `k` significant decimal digits on, for a number
`n` of `D` decimal digits. -/
def shortestAux (p n D : Nat) : Nat → Nat → Nat
  | 0, _ => n
  | steps + 1, k =>
    let m := 10 ^ (D - k)
    let lo := n / m * m
    let hi := lo + m
    if roundBits p lo = n then
      if roundBits p hi = n then
        if n - lo < hi - n then lo
        else if hi - n < n - lo then hi
        else if (lo / m) % 2 = 0 then lo else hi
      else lo
    else if roundBits p hi = n then hi
    else shortestAux p n D steps (k + 1)

/-- The value of the shortest decimal numeral that rounds to the `p`-bit number `n`,
the nearest to `n` among them: the digits a shortest round-trip printer writes for `n`
(`Number.prototype.toString` for `p = 53`, the output of a `REAL` column for `p = 24`). -/
def shortestDecimal (p n : Nat) : Nat :=
  if n < 2 ^ p then n
  else shortestAux p n (Nat.toDigits 10 n).length (Nat.toDigits 10 n).length 1

/-- The Number nearest to the integer `x`; `2 ^ 1024` and its negative stand for
`Infinity` and `-Infinity`. -/
def roundDouble (x : Int) : Int :=
  x.sign * ((min (roundBits 53 x.natAbs) (2 ^ 1024) : Nat) : Int)

/-- The Number `bodyParser.json()` (line 12) yields for an integer literal of the body. -/
def jsonNumber (literal : Int) : Int := roundDouble literal

/-- JavaScript `a + b` for a finite Number `a` and a Number `b`, both of integer value. -/
def jsAdd (a b : Int) : Int :=
  if 2 ^ 1024 ≤ b.natAbs then b else roundDouble (a + b)

/-- JavaScript `Number.isSafeInteger`: on safe integers Numbers are the integers. -/
abbrev IsSafeInteger (x : Int) : Prop := x.natAbs < 2 ^ 53

/-- The range of `Date.now()`: a time value is an integer of at most 8.64e15 in
absolute value. -/
abbrev IsTimeValue (t : Int) : Prop := t.natAbs ≤ 8640000000000000

/-- A list of decimal digits without its trailing zeros. -/
def dropTrailingZeros (ds : List Char) : List Char :=
  (ds.reverse.dropWhile (fun c => c == '0')).reverse

/-- The text of `Number.prototype.toString` for a Number of integer value, which is
what the database driver sends for a Number parameter: the shortest digits, as a plain
numeral below 1e21 and in exponent form from there on. -/
def numberText (x : Int) : String :=
  if 2 ^ 1024 ≤ x.natAbs then (if x < 0 then "-Infinity" else "Infinity")
  else
    let v := shortestDecimal 53 x.natAbs
    let sign := if x < 0 then "-" else ""
    if v < 10 ^ 21 then sign ++ toString v
    else
      let ds := Nat.toDigits 10 v
      match dropTrailingZeros ds with
      | [] => sign ++ toString v
      | [d] => sign ++ String.mk [d] ++ "e+" ++ toString (ds.length - 1)
      | d :: more => sign ++ String.mk (d :: '.' :: more) ++ "e+" ++ toString (ds.length - 1)

/-- The statements of the handlers that the store can reject. -/
inductive DbError where
  | uniqueViolation
  | foreignKeyViolation
  | invalidByteSequence
  | bigintSyntax (text : String)
  | bigintOutOfRange (text : String)
  | realOutOfRange (text : String)
  | sequenceExhausted
  | locationIdViolation
  deriving DecidableEq, Repr

/-- The text of `err.message` for a rejected statement. -/
def DbError.message : DbError → String
  | .uniqueViolation => "duplicate key value violates unique constraint \"sessions_pkey\""
  | .foreignKeyViolation =>
      "insert or update on table \"locations\" violates foreign key constraint \"locations_session_id_fkey\""
  | .invalidByteSequence => "invalid byte sequence for encoding \"UTF8\": 0x00"
  | .bigintSyntax text => "invalid input syntax for type bigint: \"" ++ text ++ "\""
  | .bigintOutOfRange text => "value \"" ++ text ++ "\" is out of range for type bigint"
  | .realOutOfRange text => "\"" ++ text ++ "\" is out of range for type real"
  | .sequenceExhausted =>
      "nextval: reached maximum value of sequence \"locations_id_seq\" (2147483647)"
  | .locationIdViolation => "duplicate key value violates unique constraint \"locations_pkey\""

/-- A `TEXT` parameter is rejected when it holds the character U+0000. -/
def hasNul (text : String) : Bool := text.data.any (fun c => c == Char.ofNat 0)

/-- A Number parameter for a `BIGINT` column: the column reads the text the driver
sends, rejects a text that is no plain numeral and a value outside the 64-bit range,
and holds the value of the numeral. -/
def bigintIn (x : Int) : Except DbError Int :=
  if 2 ^ 1024 ≤ x.natAbs ∨ 10 ^ 21 ≤ shortestDecimal 53 x.natAbs then
    .error (.bigintSyntax (numberText x))
  else
    let v := x.sign * (shortestDecimal 53 x.natAbs : Int)
    if v < -(2 ^ 63) ∨ 2 ^ 63 - 1 < v then .error (.bigintOutOfRange (numberText x))
    else .ok v

/-- What the `REAL` columns do with a coordinate of type `κ`. -/
class RealColumn (κ : Type) where
  /-- The value a `REAL` column holds for the coordinate sent, `none` when the column
  rejects it as out of range. -/
  store : κ → Option κ
  /-- The JSON value read back from a stored `REAL` value, `none` for JSON `null`. -/
  load : κ → Option κ
  /-- The text the driver sends for the coordinate. -/
  text : κ → String

/-- A Number of integer value sent to a `REAL` column: the single-precision number
nearest to the numeral sent; `Infinity` is a `REAL` value (here `2 ^ 128`), a finite
value that rounds beyond the single-precision range is rejected. -/
def realIn (x : Int) : Option Int :=
  if 2 ^ 1024 ≤ x.natAbs then some (x.sign * 2 ^ 128)
  else
    let f := roundBits 24 (shortestDecimal 53 x.natAbs)
    if 2 ^ 128 ≤ f then none else some (x.sign * (f : Int))

/-- A stored `REAL` of integer value read back: the column prints its shortest digits,
the driver parses them to a Number, and `res.json` writes `null` for an infinite one. -/
def realOut (f : Int) : Option Int :=
  if 2 ^ 128 ≤ f.natAbs then none
  else some (f.sign * (roundBits 53 (shortestDecimal 24 f.natAbs) : Int))

/-- Coordinates written as integer literals in the JSON body. -/
instance : RealColumn Int where
  store literal := realIn (jsonNumber literal)
  load := realOut
  text literal := numberText (jsonNumber literal)

/-! ## Tables (`initDB`, lines 22-46) -/

/-- Row of table `sessions`: `id TEXT PRIMARY KEY, device_id TEXT,
start_time BIGINT, end_time BIGINT, is_active INTEGER`. -/
structure SessionRow where
  id : String
  device_id : String
  start_time : Int
  end_time : Int
  is_active : Int
  deriving DecidableEq, Repr

/-- Row of table `locations`: `id SERIAL PRIMARY KEY,
session_id TEXT REFERENCES sessions(id), latitude REAL, longitude REAL,
timestamp BIGINT`. -/
structure LocationRow (κ : Type) where
  id : Nat
  session_id : String
  latitude : κ
  longitude : κ
  timestamp : Int
  deriving DecidableEq, Repr

/-- The database: both tables in insertion order and the last value handed out
by the sequence behind `locations.id`. -/
structure Store (κ : Type) where
  sessions : List SessionRow
  locations : List (LocationRow κ)
  locations_id_seq : Nat
  deriving DecidableEq, Repr

/-- The database right after `initDB` ran on a fresh server: two empty tables. -/
def Store.empty (κ : Type) : Store κ := ⟨[], [], 0⟩

variable {κ : Type}

/-- Statement `SELECT * FROM sessions WHERE id = $1`. -/
def Store.selectSession (st : Store κ) (sessionId : String) : List SessionRow :=
  st.sessions.filter (fun s => decide (s.id = sessionId))

/-- Statement `INSERT INTO sessions (id, device_id, start_time, end_time, is_active)
VALUES ($1, $2, $3, $4, $5)` with the parameters of line 67, `$5` being the literal 1.
The parameters are read in order by their column types (`TEXT`, `TEXT`, `BIGINT`,
`BIGINT`); then the primary key rejects an `id` already in the table. -/
def Store.insertSession (st : Store κ) (id deviceId : String) (startTime endTime : Int) :
    Except DbError (Store κ) :=
  if hasNul id || hasNul deviceId then .error .invalidByteSequence
  else
    match bigintIn startTime with
    | .error err => .error err
    | .ok start_time =>
      match bigintIn endTime with
      | .error err => .error err
      | .ok end_time =>
        if st.sessions.any (fun s => decide (s.id = id)) then .error .uniqueViolation
        else .ok { st with sessions := st.sessions ++ [⟨id, deviceId, start_time, end_time, 1⟩] }

/-- Statement `UPDATE sessions SET is_active = 0 WHERE id = $1`. -/
def Store.stopSession (st : Store κ) (sessionId : String) : Store κ :=
  { st with sessions :=
      st.sessions.map (fun s => if s.id = sessionId then { s with is_active := 0 } else s) }

/-- Statement `INSERT INTO locations (session_id, latitude, longitude, timestamp)
VALUES ($1, $2, $3, $4)`.  The parameters are read in order by their column types
(`TEXT`, `REAL`, `REAL`, `BIGINT`); then `id` is taken from the sequence, which ends at
2147483647 and keeps the value it handed out also when the row is rejected; the primary
key rejects an `id` already in the table and the foreign key a `session_id` that is the
`id` of no session. -/
def Store.insertLocation [RealColumn κ] (st : Store κ) (sessionId : String)
    (latitude longitude : κ) (timestamp : Int) : Option DbError × Store κ :=
  if hasNul sessionId then (some .invalidByteSequence, st)
  else
    match RealColumn.store latitude with
    | none => (some (.realOutOfRange (RealColumn.text latitude)), st)
    | some lat =>
      match RealColumn.store longitude with
      | none => (some (.realOutOfRange (RealColumn.text longitude)), st)
      | some lon =>
        match bigintIn timestamp with
        | .error err => (some err, st)
        | .ok ts =>
          if 2147483647 < st.locations_id_seq + 1 then (some .sequenceExhausted, st)
          else if st.locations.any (fun l => decide (l.id = st.locations_id_seq + 1)) then
            (some .locationIdViolation, { st with locations_id_seq := st.locations_id_seq + 1 })
          else if st.sessions.any (fun s => decide (s.id = sessionId)) then
            (none, { st with
                      locations := st.locations ++
                        [⟨st.locations_id_seq + 1, sessionId, lat, lon, ts⟩]
                      locations_id_seq := st.locations_id_seq + 1 })
          else
            (some .foreignKeyViolation, { st with locations_id_seq := st.locations_id_seq + 1 })

/-! ## Requests and responses -/

/-- One location object of the body of `POST /api/location`:
`{sessionId, latitude, longitude, timestamp?}`; `timestamp` is the integer literal
written in the body. -/
structure Loc (κ : Type) where
  sessionId : String
  latitude : κ
  longitude : κ
  timestamp : Option Int
  deriving DecidableEq, Repr

/-- The body of `POST /api/location`: one location object or an array of them. -/
inductive Body (κ : Type) where
  | single (loc : Loc κ)
  | batch (locs : List (Loc κ))
  deriving DecidableEq, Repr

/-- Row of the answer of `GET /api/sessions`:
`id, device_id as "deviceId", start_time as "startTime", end_time as "endTime",
is_active as "isActive"`; the driver returns the two `BIGINT` columns as strings. -/
structure SessionView where
  id : String
  deviceId : String
  startTime : String
  endTime : String
  isActive : Int
  deriving DecidableEq, Repr

/-- Row of the answer of `GET /api/session/:id/locations`:
`id, session_id as "sessionId", latitude, longitude, timestamp`; the driver returns
the `BIGINT` column as a string, and a coordinate is a JSON number or `null`. -/
structure LocationView (κ : Type) where
  id : Nat
  sessionId : String
  latitude : Option κ
  longitude : Option κ
  timestamp : String
  deriving DecidableEq, Repr

/-- The JSON value passed to `res.json`. -/
inductive Payload (κ : Type) where
  | health (timestamp : Int)
  | started (sessionId : String) (startTime endTime : Int)
  | message (text : String)
  | error (text : String)
  | sessions (rows : List SessionView)
  | locations (rows : List (LocationView κ))
  deriving DecidableEq, Repr

/-- An HTTP response: status code (200 unless `res.status` was called) and body. -/
structure Response (κ : Type) where
  status : Nat
  body : Payload κ
  deriving DecidableEq, Repr

/-- The column renaming of the `SELECT` of `GET /api/sessions`, as the driver returns
the row. -/
def SessionRow.toView (s : SessionRow) : SessionView :=
  ⟨s.id, s.device_id, toString s.start_time, toString s.end_time, s.is_active⟩

/-- The column renaming of the `SELECT` of `GET /api/session/:id/locations`, as the
driver returns the row. -/
def LocationRow.toView [RealColumn κ] (l : LocationRow κ) : LocationView κ :=
  ⟨l.id, l.session_id, RealColumn.load l.latitude, RealColumn.load l.longitude,
    toString l.timestamp⟩

/-- JavaScript `a || b` for an optional Number `a` of integer value: `undefined` and
`0` are falsy. -/
def orDefault (a : Option Int) (b : Int) : Int :=
  match a with
  | some v => if v = 0 then b else v
  | none => b

/-! ## Handlers -/

/-- Handler `GET /api/health` (lines 53-55). -/
def health (st : Store κ) (now : Int) : Response κ × Store κ :=
  (⟨200, .health now⟩, st)

/-- The template literal of line 60. -/
def mkSessionId (deviceId : String) (now : Int) : String :=
  deviceId ++ "-" ++ toString now

/-- Handler `POST /api/session/start` (lines 58-73).  `now₀` is the reading of
`Date.now()` on line 60 and `now₁` the one on line 61; `duration` is the integer
literal written in the body. -/
def sessionStart (st : Store κ) (deviceId : String) (duration : Option Int)
    (now₀ now₁ : Int) : Response κ × Store κ :=
  let sessionId := mkSessionId deviceId now₀
  let startTime := now₁
  let endTime := jsAdd startTime (orDefault (duration.map jsonNumber) (12 * 60 * 60 * 1000))
  match st.insertSession sessionId deviceId startTime endTime with
  | .ok st' => (⟨200, .started sessionId startTime endTime⟩, st')
  | .error err => (⟨500, .error err.message⟩, st)

/-- Handler `POST /api/session/stop` (lines 76-84). -/
def sessionStop (st : Store κ) (sessionId : String) : Response κ × Store κ :=
  (⟨200, .message "Session stopped"⟩, st.stopSession sessionId)

/-- Line 89: `Array.isArray(body) ? body : [body]`. -/
def Body.toList : Body κ → List (Loc κ)
  | .single loc => [loc]
  | .batch locs => locs

/-- The loop of lines 103-108 from element `i` on.  `clock k` is the reading of
`Date.now()` while element `k` of the array is processed.  A rejected statement
ends the loop with the error; the rows inserted before it stay. -/
def insertAll [RealColumn κ] (sessionId : String) (clock : Nat → Int) :
    Nat → List (Loc κ) → Store κ → Option DbError × Store κ
  | _, [], st => (none, st)
  | i, loc :: rest, st =>
    match st.insertLocation sessionId loc.latitude loc.longitude
        (orDefault (loc.timestamp.map jsonNumber) (clock i)) with
    | (none, st') => insertAll sessionId clock (i + 1) rest st'
    | (some err, st') => (some err, st')

/-- Handler `POST /api/location` (lines 87-114). -/
def reportLocation [RealColumn κ] (st : Store κ) (body : Body κ) (clock : Nat → Int) :
    Response κ × Store κ :=
  let locations := body.toList
  match locations with
  | [] => (⟨200, .message "No data"⟩, st)
  | first :: _ =>
    let sessionId := first.sessionId
    if (st.selectSession sessionId).length = 0 then
      (⟨404, .error "Session not found"⟩, st)
    else
      match insertAll sessionId clock 0 locations st with
      | (none, st') =>
          (⟨200, .message ("Recorded " ++ toString locations.length ++ " locations")⟩, st')
      | (some err, st') => (⟨500, .error err.message⟩, st')

/-- The rows of `SELECT ... FROM sessions ORDER BY start_time DESC`. -/
def Store.sessionsByStartDesc (st : Store κ) : List SessionRow :=
  st.sessions.insertionSort (fun a b => b.start_time ≤ a.start_time)

/-- Handler `GET /api/sessions` (lines 117-124). -/
def listSessions (st : Store κ) : Response κ × Store κ :=
  (⟨200, .sessions (st.sessionsByStartDesc.map SessionRow.toView)⟩, st)

/-- The rows of `SELECT ... FROM locations WHERE session_id = $1 ORDER BY timestamp ASC`. -/
def Store.locationsOf (st : Store κ) (sessionId : String) : List (LocationRow κ) :=
  (st.locations.filter (fun l => decide (l.session_id = sessionId))).insertionSort
    (fun a b => a.timestamp ≤ b.timestamp)

/-- Handler `GET /api/session/:id/locations` (lines 127-138). -/
def listLocations [RealColumn κ] (st : Store κ) (sessionId : String) :
    Response κ × Store κ :=
  (⟨200, .locations ((st.locationsOf sessionId).map LocationRow.toView)⟩, st)

/-- A request to one of the six routes, with its parameters. -/
inductive Request (κ : Type) where
  | health
  | start (deviceId : String) (duration : Option Int)
  | stop (sessionId : String)
  | location (body : Body κ)
  | sessions
  | locations (sessionId : String)
  deriving DecidableEq, Repr

/-- The server handling one request; `clock k` is the `k`-th reading of
`Date.now()` the handler takes (for the location report, the reading taken at
element `k`). -/
def handle [RealColumn κ] (st : Store κ) (clock : Nat → Int) :
    Request κ → Response κ × Store κ
  | .health => health st (clock 0)
  | .start deviceId duration => sessionStart st deviceId duration (clock 0) (clock 1)
  | .stop sessionId => sessionStop st sessionId
  | .location body => reportLocation st body clock
  | .sessions => listSessions st
  | .locations sessionId => listLocations st sessionId

/-- The stores the server can be in: the empty store, and the store after any
request handled in a store it can be in. -/
inductive Reachable [RealColumn κ] : Store κ → Prop where
  | init : Reachable (Store.empty κ)
  | step (st : Store κ) (clock : Nat → Int) (r : Request κ) :
      Reachable st → Reachable (handle st clock r).2

/-- Every location row references a session row of the store. -/
def Store.RefIntegrity (st : Store κ) : Prop :=
  ∀ l ∈ st.locations, ∃ s ∈ st.sessions, s.id = l.session_id

/-- What the tables of a database of this schema satisfy when every location row was
written by the server: a session id is a `TEXT` value, so it holds no U+0000, and the
location ids were handed out by the sequence. -/
abbrev Store.WellFormed (st : Store κ) : Prop :=
  (∀ s ∈ st.sessions, hasNul s.id = false) ∧ (∀ l ∈ st.locations, l.id ≤ st.locations_id_seq)

/-- The columns of `locations` accept the element: both coordinates are in the range
of `REAL` and the timestamp, when the element has one, is in the range of `BIGINT`. -/
def Loc.accepted [RealColumn κ] (loc : Loc κ) : Bool :=
  (RealColumn.store loc.latitude).isSome && (RealColumn.store loc.longitude).isSome
    && (match loc.timestamp with
        | none => true
        | some t => (bigintIn (jsonNumber t)).isOk)

/-! ## Relations used to state the properties -/

/-- What one inserted row keeps of the batch element it was made from: the session id
looked up, the element's coordinates as the `REAL` columns hold them, and the
element's timestamp when it is a non-zero safe integer. -/
def RowOf [RealColumn κ] (sessionId : String) (loc : Loc κ) (row : LocationRow κ) : Prop :=
  row.session_id = sessionId
    ∧ RealColumn.store loc.latitude = some row.latitude
    ∧ RealColumn.store loc.longitude = some row.longitude
    ∧ ∀ t : Int, loc.timestamp = some t → t ≠ 0 → IsSafeInteger t → row.timestamp = t

/-- How a session row `s` of the store before request `r` reads after it: same id,
device id, start time and end time, and an active flag that is the same, or was
non-zero and is 0 now with `r` the stop of that session. -/
def Kept (r : Request κ) (s s' : SessionRow) : Prop :=
  s'.id = s.id ∧ s'.device_id = s.device_id ∧ s'.start_time = s.start_time
    ∧ s'.end_time = s.end_time
    ∧ (s'.is_active = s.is_active ∨ (s.is_active ≠ 0 ∧ s'.is_active = 0 ∧ r = .stop s.id))

/-- A session row `s` of the store as row `v` of the answer of `GET /api/sessions`:
every column under its new name, the two `BIGINT` columns as decimal strings. -/
def SessionShown (s : SessionRow) (v : SessionView) : Prop :=
  v.id = s.id ∧ v.deviceId = s.device_id ∧ v.startTime = toString s.start_time
    ∧ v.endTime = toString s.end_time ∧ v.isActive = s.is_active

/-- A location row `l` of the store as row `v` of the answer of
`GET /api/session/:id/locations`: every column under its new name, the coordinates as
read back from the `REAL` columns and the `BIGINT` column as a decimal string. -/
def LocationShown [RealColumn κ] (l : LocationRow κ) (v : LocationView κ) : Prop :=
  v.id = l.id ∧ v.sessionId = l.session_id ∧ v.latitude = RealColumn.load l.latitude
    ∧ v.longitude = RealColumn.load l.longitude ∧ v.timestamp = toString l.timestamp

/-! ## Reading decimal digits (used to state what the template literal builds) -/

/-- Value of a digit string read most significant digit first. -/
def decodeDigits (cs : List Char) : Nat :=
  cs.foldl (fun acc c => acc * 10 + (c.toNat - 48)) 0

set_option exponentiation.threshold 2048
set_option maxRecDepth 100000

/-! ## Lemmas on numbers -/

theorem roundBits_of_lt (p n : Nat) (h : n < 2 ^ p) : roundBits p n = n := by
  unfold roundBits
  rw [if_pos h]

theorem shortestDecimal_of_lt (p n : Nat) (h : n < 2 ^ p) : shortestDecimal p n = n := by
  unfold shortestDecimal
  rw [if_pos h]

theorem two_pow_53_lt : (2 : Nat) ^ 53 < 2 ^ 1024 :=
  Nat.pow_lt_pow_right (by decide) (by decide)

theorem roundDouble_of_safe (x : Int) (h : IsSafeInteger x) : roundDouble x = x := by
  unfold roundDouble
  rw [roundBits_of_lt 53 x.natAbs h, Nat.min_eq_left (Nat.le_of_lt (Nat.lt_trans h two_pow_53_lt))]
  exact Int.sign_mul_natAbs x

theorem jsonNumber_of_safe (x : Int) (h : IsSafeInteger x) : jsonNumber x = x :=
  roundDouble_of_safe x h

theorem jsAdd_of_safe (a b : Int) (hb : IsSafeInteger b) (hab : IsSafeInteger (a + b)) :
    jsAdd a b = a + b := by
  unfold jsAdd
  rw [if_neg (Nat.not_le.2 (Nat.lt_trans hb two_pow_53_lt))]
  exact roundDouble_of_safe (a + b) hab

theorem bigintIn_of_safe (x : Int) (h : IsSafeInteger x) : bigintIn x = .ok x := by
  have h1 : ¬ (2 ^ 1024 ≤ x.natAbs ∨ 10 ^ 21 ≤ shortestDecimal 53 x.natAbs) := by
    rw [shortestDecimal_of_lt 53 x.natAbs h]
    have := Nat.lt_trans h two_pow_53_lt
    have h' : x.natAbs < 2 ^ 53 := h
    omega
  have h2 : x.sign * (shortestDecimal 53 x.natAbs : Int) = x := by
    rw [shortestDecimal_of_lt 53 x.natAbs h]
    exact Int.sign_mul_natAbs x
  have h3 : ¬ (x < -(2 ^ 63) ∨ 2 ^ 63 - 1 < x) := by
    have h' : x.natAbs < 2 ^ 53 := h
    omega
  unfold bigintIn
  rw [if_neg h1]
  simp only [h2, if_neg h3]

theorem isSafeInteger_of_isTimeValue (t : Int) (h : IsTimeValue t) : IsSafeInteger t := by
  have h' : t.natAbs ≤ 8640000000000000 := h
  show t.natAbs < 2 ^ 53
  omega

theorem isSafeInteger_default (t : Int) (h : IsTimeValue t) :
    IsSafeInteger (12 * 60 * 60 * 1000) ∧ IsSafeInteger (t + 12 * 60 * 60 * 1000) := by
  have h' : t.natAbs ≤ 8640000000000000 := h
  constructor
  · show (12 * 60 * 60 * 1000 : Int).natAbs < 2 ^ 53
    omega
  · show (t + 12 * 60 * 60 * 1000).natAbs < 2 ^ 53
    omega

/-! ## Lemmas on the decimal digits of line 60 -/

theorem decodeDigits_snoc (cs : List Char) (c : Char) :
    decodeDigits (cs ++ [c]) = decodeDigits cs * 10 + (c.toNat - 48) := by
  simp [decodeDigits, List.foldl_append]

theorem digitChar_value (k : Nat) (hk : k < 10) :
    (Nat.digitChar k).toNat - 48 = k ∧ Nat.digitChar k ≠ '-'
      ∧ Nat.digitChar k ≠ Char.ofNat 0 := by
  interval_cases k <;> decide

theorem toDigitsCore_spec (fuel : Nat) : ∀ (n : Nat) (ds : List Char), n < fuel →
    ∃ pre : List Char, Nat.toDigitsCore 10 fuel n ds = pre ++ ds ∧
      (∀ c ∈ pre, c ≠ '-' ∧ c ≠ Char.ofNat 0) ∧ decodeDigits pre = n := by
  induction fuel with
  | zero => intro n ds h; omega
  | succ fuel ih =>
    intro n ds h
    have hd := digitChar_value (n % 10) (Nat.mod_lt _ (by decide))
    unfold Nat.toDigitsCore
    by_cases h0 : n / 10 = 0
    · refine ⟨[Nat.digitChar (n % 10)], ?_, ?_, ?_⟩
      · simp [h0]
      · intro c hc
        simp at hc
        subst hc
        exact hd.2
      · have := decodeDigits_snoc [] (Nat.digitChar (n % 10))
        simp at this
        rw [this, hd.1]
        simp [decodeDigits]
        omega
    · obtain ⟨pre, hpre, hno, hval⟩ := ih (n / 10) (Nat.digitChar (n % 10) :: ds) (by omega)
      refine ⟨pre ++ [Nat.digitChar (n % 10)], ?_, ?_, ?_⟩
      · simp [h0, hpre]
      · intro c hc
        rcases List.mem_append.1 hc with hc | hc
        · exact hno c hc
        · simp at hc
          subst hc
          exact hd.2
      · rw [decodeDigits_snoc, hval, hd.1]
        omega

theorem natRepr_spec (n : Nat) :
    (∀ c ∈ (Nat.repr n).data, c ≠ '-' ∧ c ≠ Char.ofNat 0)
      ∧ decodeDigits (Nat.repr n).data = n := by
  obtain ⟨pre, hpre, hno, hval⟩ := toDigitsCore_spec (n + 1) n [] (by omega)
  have : (Nat.repr n).data = pre := by
    simp [Nat.repr, Nat.toDigits, hpre, List.asString]
  rw [this]
  exact ⟨hno, hval⟩

theorem toString_nonneg_spec (t : Int) (ht : 0 ≤ t) :
    (∀ c ∈ (toString t).data, c ≠ '-') ∧ ((decodeDigits (toString t).data : Nat) : Int) = t := by
  obtain ⟨n, rfl⟩ := Int.eq_ofNat_of_zero_le ht
  have h := natRepr_spec n
  have e : toString (n : Int) = Nat.repr n := rfl
  rw [e]
  exact ⟨fun c hc => (h.1 c hc).1, by rw [h.2]⟩

theorem hasNul_append (a b : String) : hasNul (a ++ b) = (hasNul a || hasNul b) := by
  simp [hasNul, String.data_append, List.any_append]

theorem hasNul_natRepr (n : Nat) : hasNul (Nat.repr n) = false := by
  unfold hasNul
  rw [List.any_eq_false]
  intro c hc
  simpa using ((natRepr_spec n).1 c hc).2

theorem hasNul_toString (t : Int) : hasNul (toString t) = false := by
  cases t with
  | ofNat n => exact hasNul_natRepr n
  | negSucc n =>
    have e : toString (Int.negSucc n) = "-" ++ Nat.repr (n + 1) := rfl
    rw [e, hasNul_append, hasNul_natRepr]
    decide

theorem hasNul_mkSessionId (deviceId : String) (now : Int) :
    hasNul (mkSessionId deviceId now) = hasNul deviceId := by
  unfold mkSessionId
  rw [hasNul_append, hasNul_append, hasNul_toString]
  have : hasNul "-" = false := by decide
  simp [this]

theorem mkSessionId_data (d : String) (t : Int) :
    (mkSessionId d t).data = d.data ++ '-' :: (toString t).data := by
  simp [mkSessionId, String.data_append]

theorem append_dash_cancel : ∀ (l₁ l₂ r₁ r₂ : List Char),
    (∀ c ∈ r₁, c ≠ '-') → (∀ c ∈ r₂, c ≠ '-') →
    l₁ ++ '-' :: r₁ = l₂ ++ '-' :: r₂ → l₁ = l₂ ∧ r₁ = r₂ := by
  intro l₁
  induction l₁ with
  | nil =>
    intro l₂ r₁ r₂ h₁ _ h
    cases l₂ with
    | nil => simpa using h
    | cons a l₂ =>
      simp at h
      obtain ⟨rfl, rfl⟩ := h
      exact absurd rfl (h₁ '-' (by simp))
  | cons a l₁ ih =>
    intro l₂ r₁ r₂ h₁ h₂ h
    cases l₂ with
    | nil =>
      simp at h
      obtain ⟨rfl, rfl⟩ := h
      exact absurd rfl (h₂ '-' (by simp))
    | cons b l₂ =>
      simp at h
      obtain ⟨rfl, h⟩ := h
      obtain ⟨rfl, rfl⟩ := ih l₂ r₁ r₂ h₁ h₂ h
      exact ⟨rfl, rfl⟩

/-! ## Store lemmas -/

theorem any_id_eq_false (l : List SessionRow) (sid : String) (h : ∀ s ∈ l, s.id ≠ sid) :
    l.any (fun s => decide (s.id = sid)) = false := by
  rw [List.any_eq_false]
  intro s hs
  simpa using h s hs

theorem any_id_eq_true (l : List SessionRow) (sid : String) (h : ∃ s ∈ l, s.id = sid) :
    l.any (fun s => decide (s.id = sid)) = true := by
  rw [List.any_eq_true]
  obtain ⟨s, hs, e⟩ := h
  exact ⟨s, hs, by simpa using e⟩

theorem selectSession_eq_nil (st : Store κ) (sid : String) (h : ∀ s ∈ st.sessions, s.id ≠ sid) :
    st.selectSession sid = [] := by
  unfold Store.selectSession
  rw [List.filter_eq_nil_iff]
  intro s hs
  simpa using h s hs

theorem selectSession_length_ne_zero (st : Store κ) (sid : String)
    (h : ∃ s ∈ st.sessions, s.id = sid) : (st.selectSession sid).length ≠ 0 := by
  obtain ⟨s, hs, e⟩ := h
  have hm : s ∈ st.selectSession sid := by
    unfold Store.selectSession
    exact List.mem_filter.2 ⟨hs, by simpa using e⟩
  intro h0
  rw [List.length_eq_zero] at h0
  rw [h0] at hm
  exact absurd hm (List.not_mem_nil s)

theorem stopSession_of_absent (st : Store κ) (sid : String) (h : ∀ s ∈ st.sessions, s.id ≠ sid) :
    st.stopSession sid = st := by
  unfold Store.stopSession
  have : st.sessions.map (fun s => if s.id = sid then { s with is_active := 0 } else s)
      = st.sessions := by
    conv_rhs => rw [← List.map_id st.sessions]
    apply List.map_congr_left
    intro s hs
    simp [h s hs]
  rw [this]

theorem insertSession_sessions (st : Store κ) (id deviceId : String) (startTime endTime : Int) :
    (∃ err, st.insertSession id deviceId startTime endTime = .error err)
      ∨ ∃ row : SessionRow, row.is_active = 1 ∧ row.id = id ∧ hasNul id = false ∧
          st.insertSession id deviceId startTime endTime =
            .ok { st with sessions := st.sessions ++ [row] } := by
  unfold Store.insertSession
  by_cases hn : (hasNul id || hasNul deviceId) = true
  · exact Or.inl ⟨_, by rw [if_pos hn]⟩
  · rw [if_neg hn]
    have hid : hasNul id = false := by
      cases h : hasNul id with
      | false => rfl
      | true => simp [h] at hn
    cases bigintIn startTime with
    | error err => exact Or.inl ⟨err, rfl⟩
    | ok s =>
      cases bigintIn endTime with
      | error err => exact Or.inl ⟨err, rfl⟩
      | ok e =>
        by_cases ha : st.sessions.any (fun s => decide (s.id = id)) = true
        · exact Or.inl ⟨.uniqueViolation, by simp only [ha, if_true]⟩
        · exact Or.inr ⟨⟨id, deviceId, s, e, 1⟩, rfl, rfl, hid, by simp only [ha]; rfl⟩

/-! ## Session start -/

/-- Claim C7.  The identifier built on line 60, the device id followed by `-` and the
decimal creation time, determines both: for device ids `d₁ d₂` and non-negative
times `t₁ t₂`, equal identifiers force `d₁ = d₂` and `t₁ = t₂`. -/
theorem mkSessionId_injective (d₁ d₂ : String) (t₁ t₂ : Int) (h₁ : 0 ≤ t₁) (h₂ : 0 ≤ t₂)
    (h : mkSessionId d₁ t₁ = mkSessionId d₂ t₂) : d₁ = d₂ ∧ t₁ = t₂ := by
  have hd := congrArg String.data h
  rw [mkSessionId_data, mkSessionId_data] at hd
  have s₁ := toString_nonneg_spec t₁ h₁
  have s₂ := toString_nonneg_spec t₂ h₂
  obtain ⟨e₁, e₂⟩ := append_dash_cancel _ _ _ _ s₁.1 s₂.1 hd
  refine ⟨String.ext e₁, ?_⟩
  rw [← s₁.2, ← s₂.2, e₂]

/-- Device `phone` at time 5: the identifier `phone-5` gives back device and time, and
a start of the same device at time 6 builds a different identifier. -/
theorem mkSessionId_injective_witness :
    (mkSessionId "phone" 5 = "phone-5" ∧ "phone" = "phone" ∧ (5 : Int) = 5)
      ∧ mkSessionId "phone" 5 ≠ mkSessionId "phone" 6 :=
  ⟨⟨by decide, mkSessionId_injective "phone" "phone" 5 5 (by decide) (by decide) rfl⟩,
   fun h => absurd (mkSessionId_injective "phone" "phone" 5 6 (by decide) (by decide) h).2
    (by decide)⟩

/-- Claim C1 as stated fails, in four ways.  (1) In the store left by a start of device
`a` at time 5, a second start of device `a` with duration 3600000 at the same time 5
builds the identifier `a-5` again, the primary key rejects the row, and the answer is
the 500 error with no `startTime` and no `endTime`.  (2) At time 1700000000000 the
duration 9007199254740991 is answered with `endTime` 9008899254740992, the double sum
of line 62, so `endTime - startTime` is the duration plus one.  (3) The duration
9223372036854775807 gives an `endTime` outside the `BIGINT` range and the answer is a
500 error.  (4) A `deviceId` holding U+0000 is rejected by the `TEXT` columns and the
answer is a 500 error. -/
theorem sessionStart_collision :
    ((sessionStart (sessionStart (Store.empty Unit) "a" none 5 5).2 "a" (some 3600000) 5 5).1
        = ⟨500, .error "duplicate key value violates unique constraint \"sessions_pkey\""⟩
      ∧ ¬ ∃ sid startTime endTime,
          (sessionStart (sessionStart (Store.empty Unit) "a" none 5 5).2 "a"
            (some 3600000) 5 5).1.body = .started sid startTime endTime)
    ∧ (sessionStart (Store.empty Unit) "a" (some 9007199254740991)
          1700000000000 1700000000000).1
        = ⟨200, .started "a-1700000000000" 1700000000000 9008899254740992⟩
    ∧ (sessionStart (Store.empty Unit) "a" (some 9223372036854775807)
          1700000000000 1700000000000)
        = (⟨500, .error "value \"9223373736854776000\" is out of range for type bigint"⟩,
           Store.empty Unit)
    ∧ (sessionStart (Store.empty Unit) (String.mk ['a', Char.ofNat 0]) (some 3600000)
          1700000000000 1700000000000)
        = (⟨500, .error "invalid byte sequence for encoding \"UTF8\": 0x00"⟩,
           Store.empty Unit) := by
  refine ⟨⟨by decide, ?_⟩, by decide, by decide, by decide⟩
  rintro ⟨sid, a, b, h⟩
  have hb : (sessionStart (sessionStart (Store.empty Unit) "a" none 5 5).2 "a"
      (some 3600000) 5 5).1.body
      = .error "duplicate key value violates unique constraint \"sessions_pkey\"" := by
    decide
  rw [hb] at h
  cases h

/-- Claim C1, amended.  In a store with no session whose id is the identifier this
start builds, for a `deviceId` without U+0000 and clock readings that are time
values, a start whose duration is omitted, or is a safe integer whose sum with the
clock reading is a safe integer, answers `sessionId, startTime, endTime` and persists
one new row with the same `startTime` and `endTime`; `endTime - startTime` is the
duration when it is not zero and 43200000 when it is omitted. -/
theorem sessionStart_fresh (st : Store κ) (deviceId : String) (duration : Option Int)
    (now₀ now₁ : Int) (hfresh : ∀ s ∈ st.sessions, s.id ≠ mkSessionId deviceId now₀)
    (htext : hasNul deviceId = false) (_hnow₀ : IsTimeValue now₀) (hnow : IsTimeValue now₁)
    (hsafe : ∀ d : Int, duration = some d → IsSafeInteger d ∧ IsSafeInteger (now₁ + d)) :
    ∃ startTime endTime : Int,
      sessionStart st deviceId duration now₀ now₁ =
        (⟨200, .started (mkSessionId deviceId now₀) startTime endTime⟩,
         { st with sessions := st.sessions ++
             [⟨mkSessionId deviceId now₀, deviceId, startTime, endTime, 1⟩] })
      ∧ (∀ d : Int, duration = some d → d ≠ 0 → endTime - startTime = d)
      ∧ (duration = none → endTime - startTime = 43200000) := by
  have hdef := isSafeInteger_default now₁ hnow
  have hend : ∃ e : Int, IsSafeInteger e ∧ IsSafeInteger (now₁ + e)
      ∧ orDefault (duration.map jsonNumber) (12 * 60 * 60 * 1000) = e
      ∧ (∀ d : Int, duration = some d → d ≠ 0 → e = d)
      ∧ (duration = none → e = 43200000) := by
    cases hd : duration with
    | none =>
      refine ⟨12 * 60 * 60 * 1000, hdef.1, hdef.2, rfl, ?_, ?_⟩
      · intro d h
        cases h
      · intro _
        norm_num
    | some d =>
      have hs := hsafe d hd
      by_cases h0 : d = 0
      · subst h0
        refine ⟨12 * 60 * 60 * 1000, hdef.1, hdef.2, ?_, ?_, ?_⟩
        · simp [orDefault, jsonNumber_of_safe 0 hs.1]
        · intro d' h' hne
          cases h'
          exact absurd rfl hne
        · intro h
          cases h
      · refine ⟨d, hs.1, hs.2, ?_, ?_, ?_⟩
        · simp [orDefault, jsonNumber_of_safe d hs.1, h0]
        · intro d' h' _
          cases h'
          rfl
        · intro h
          cases h
  obtain ⟨e, he, hsum, hor, hdur, hnone⟩ := hend
  refine ⟨now₁, now₁ + e, ?_, ?_, ?_⟩
  · simp only [sessionStart, Store.insertSession, hor, jsAdd_of_safe now₁ e he hsum,
      hasNul_mkSessionId, htext, Bool.or_self, Bool.false_eq_true, if_false,
      bigintIn_of_safe now₁ (isSafeInteger_of_isTimeValue now₁ hnow),
      bigintIn_of_safe (now₁ + e) hsum, any_id_eq_false _ _ hfresh]
  · intro d hd hne
    rw [hdur d hd hne]
    omega
  · intro hd
    rw [hnone hd]
    omega

/-- In the store left by a start of device `a` at time 1700000000000, a start of the
same device one millisecond later with duration 3600000 is answered with
`endTime - startTime = 3600000`, and the new row follows the old one. -/
theorem sessionStart_fresh_witness :
    ∃ startTime endTime : Int,
      sessionStart (⟨[⟨"a-1700000000000", "a", 1700000000000, 1700043200000, 1⟩], [], 0⟩ :
          Store Unit) "a" (some 3600000) 1700000000001 1700000000001 =
        (⟨200, .started (mkSessionId "a" 1700000000001) startTime endTime⟩,
         { (⟨[⟨"a-1700000000000", "a", 1700000000000, 1700043200000, 1⟩], [], 0⟩ :
              Store Unit) with
           sessions :=
             (⟨[⟨"a-1700000000000", "a", 1700000000000, 1700043200000, 1⟩], [], 0⟩ :
                Store Unit).sessions ++
               [⟨mkSessionId "a" 1700000000001, "a", startTime, endTime, 1⟩] })
      ∧ (∀ d : Int, some (3600000 : Int) = some d → d ≠ 0 → endTime - startTime = d)
      ∧ (some (3600000 : Int) = none → endTime - startTime = 43200000) :=
  sessionStart_fresh _ "a" (some 3600000) 1700000000001 1700000000001
    (by decide) (by decide) (by decide) (by decide)
    (fun d hd => by cases hd; exact ⟨by decide, by decide⟩)

/-! ## Session stop -/

/-- Claim C8.  Stopping a session id that matches no session of the store answers
`message: Session stopped` with status 200 and leaves the store as it was. -/
theorem sessionStop_absent (st : Store κ) (sessionId : String)
    (habsent : ∀ s ∈ st.sessions, s.id ≠ sessionId) :
    sessionStop st sessionId = (⟨200, .message "Session stopped"⟩, st) := by
  unfold sessionStop
  rw [stopSession_of_absent st sessionId habsent]

/-- Stopping `b-9` in a store whose only session is `a-5`. -/
theorem sessionStop_absent_witness :
    sessionStop (⟨[⟨"a-5", "a", 5, 9, 1⟩], [], 0⟩ : Store Unit) "b-9"
      = (⟨200, .message "Session stopped"⟩, ⟨[⟨"a-5", "a", 5, 9, 1⟩], [], 0⟩) :=
  sessionStop_absent _ "b-9" (by decide)

/-! ## Location report -/

theorem insertLocation_accepted [RealColumn κ] (st : Store κ) (sessionId : String)
    (latitude longitude lat lon : κ) (timestamp ts : Int)
    (hnul : hasNul sessionId = false)
    (hlat : RealColumn.store latitude = some lat) (hlon : RealColumn.store longitude = some lon)
    (hts : bigintIn timestamp = .ok ts)
    (hroom : st.locations_id_seq + 1 ≤ 2147483647)
    (hids : ∀ l ∈ st.locations, l.id ≤ st.locations_id_seq)
    (hpresent : ∃ s ∈ st.sessions, s.id = sessionId) :
    st.insertLocation sessionId latitude longitude timestamp =
      (none, ⟨st.sessions,
        st.locations ++ [⟨st.locations_id_seq + 1, sessionId, lat, lon, ts⟩],
        st.locations_id_seq + 1⟩) := by
  have hfresh : st.locations.any (fun l => decide (l.id = st.locations_id_seq + 1)) = false := by
    rw [List.any_eq_false]
    intro l hl
    have := hids l hl
    simp only [decide_eq_true_eq]
    omega
  have hmax : ¬ 2147483647 < st.locations_id_seq + 1 := by omega
  simp only [Store.insertLocation, hnul, Bool.false_eq_true, if_false, hlat, hlon, hts, hmax,
    hfresh, any_id_eq_true st.sessions sessionId hpresent, if_true]

theorem timestamp_accepted (ts : Option Int) (now : Int) (hnow : IsTimeValue now)
    (hts : (match ts with
            | none => true
            | some t => (bigintIn (jsonNumber t)).isOk) = true) :
    ∃ v : Int, bigintIn (orDefault (ts.map jsonNumber) now) = .ok v
      ∧ ∀ t : Int, ts = some t → t ≠ 0 → IsSafeInteger t → v = t := by
  have hclock := bigintIn_of_safe now (isSafeInteger_of_isTimeValue now hnow)
  cases ts with
  | none =>
    refine ⟨now, by simpa [orDefault] using hclock, ?_⟩
    intro t h
    cases h
  | some t =>
    by_cases h0 : jsonNumber t = 0
    · refine ⟨now, by simpa [orDefault, h0] using hclock, ?_⟩
      intro t' h' hne hsafe
      cases h'
      rw [jsonNumber_of_safe t hsafe] at h0
      exact absurd h0 hne
    · simp only at hts
      cases hb : bigintIn (jsonNumber t) with
      | error err => rw [hb] at hts; cases hts
      | ok v =>
        refine ⟨v, by simpa [orDefault, h0] using hb, ?_⟩
        intro t' h' _ hsafe
        cases h'
        rw [jsonNumber_of_safe t hsafe, bigintIn_of_safe t hsafe] at hb
        cases hb
        rfl

theorem insertAll_of_present [RealColumn κ] (sessionId : String) (clock : Nat → Int)
    (hnul : hasNul sessionId = false) (hclock : ∀ i, IsTimeValue (clock i)) :
    ∀ (locs : List (Loc κ)) (i : Nat) (st : Store κ),
      (∃ s ∈ st.sessions, s.id = sessionId) →
      (∀ l ∈ st.locations, l.id ≤ st.locations_id_seq) →
      st.locations_id_seq + locs.length ≤ 2147483647 →
      (∀ loc ∈ locs, loc.accepted = true) →
      ∃ rows : List (LocationRow κ),
        insertAll sessionId clock i locs st =
          (none, ⟨st.sessions, st.locations ++ rows, st.locations_id_seq + locs.length⟩)
        ∧ List.Forall₂ (RowOf sessionId) locs rows := by
  intro locs
  induction locs with
  | nil =>
    intro i st _ _ _ _
    exact ⟨[], by simp [insertAll], List.Forall₂.nil⟩
  | cons loc rest ih =>
    intro i st hpresent hids hroom hacc
    have hloc := hacc loc (List.mem_cons_self loc rest)
    simp only [Loc.accepted, Bool.and_eq_true] at hloc
    obtain ⟨⟨hlat, hlon⟩, hts⟩ := hloc
    obtain ⟨lat, hlat⟩ := Option.isSome_iff_exists.1 hlat
    obtain ⟨lon, hlon⟩ := Option.isSome_iff_exists.1 hlon
    obtain ⟨ts, hts, hsame⟩ := timestamp_accepted loc.timestamp (clock i) (hclock i) hts
    have hlen : (loc :: rest).length = rest.length + 1 := rfl
    have hone := insertLocation_accepted st sessionId loc.latitude loc.longitude lat lon
      (orDefault (loc.timestamp.map jsonNumber) (clock i)) ts hnul hlat hlon hts
      (by omega) hids hpresent
    obtain ⟨rows, hrows, hall⟩ := ih (i + 1)
      ⟨st.sessions, st.locations ++ [⟨st.locations_id_seq + 1, sessionId, lat, lon, ts⟩],
        st.locations_id_seq + 1⟩ hpresent
      (by
        intro l hl
        rcases List.mem_append.1 hl with hl | hl
        · have := hids l hl
          show l.id ≤ st.locations_id_seq + 1
          omega
        · simp only [List.mem_singleton] at hl
          subst hl
          exact Nat.le_refl _)
      (by show st.locations_id_seq + 1 + rest.length ≤ 2147483647; omega)
      (fun l hl => hacc l (List.mem_cons_of_mem loc hl))
    refine ⟨⟨st.locations_id_seq + 1, sessionId, lat, lon, ts⟩ :: rows, ?_, ?_⟩
    · simp only [insertAll, hone]
      rw [hrows]
      simp [List.append_assoc, Nat.add_assoc, Nat.add_comm 1]
    · exact List.Forall₂.cons ⟨rfl, hlat, hlon, hsame⟩ hall

/-- Claim C2.  A single location object whose `sessionId` matches no session of the
store is answered 404 `Session not found`, and the store after the request is the
store before it. -/
theorem reportLocation_missing [RealColumn κ] (st : Store κ) (loc : Loc κ)
    (clock : Nat → Int) (habsent : ∀ s ∈ st.sessions, s.id ≠ loc.sessionId) :
    reportLocation st (.single loc) clock = (⟨404, .error "Session not found"⟩, st) := by
  simp [reportLocation, Body.toList, selectSession_eq_nil st loc.sessionId habsent]

/-- A location for `b-9` in a store that holds session `a-5` and one point of it. -/
theorem reportLocation_missing_witness :
    reportLocation (⟨[⟨"a-5", "a", 5, 9, 1⟩], [⟨1, "a-5", 10, 20, 6⟩], 1⟩ : Store Int)
        (.single ⟨"b-9", 1, 2, some 7⟩) (fun _ => 8)
      = (⟨404, .error "Session not found"⟩,
         ⟨[⟨"a-5", "a", 5, 9, 1⟩], [⟨1, "a-5", 10, 20, 6⟩], 1⟩) :=
  reportLocation_missing _ ⟨"b-9", 1, 2, some 7⟩ (fun _ => 8) (by decide)

/-- Claim C3 as stated fails, in four ways, all in stores that hold session `d-1`.
(1) A batch whose second element has timestamp 10000000000000000000 is answered 500,
the `BIGINT` column rejecting that timestamp, and only the first element is stored.
(2) An element with latitude 16777217 is stored with latitude 16777216, the nearest
single-precision value, not with its own latitude.  (3) When the sequence of
`locations.id` has handed out 2147483647 the report is answered 500 and nothing is
stored.  (4) When the table holds a row with the id the sequence hands out next, the
primary key rejects the row and the report is answered 500. -/
theorem reportLocation_batch_rejected :
    reportLocation (sessionStart (Store.empty Int) "d" none 1 1).2
        (.batch [⟨"d-1", 1, 2, some 7⟩, ⟨"B", 3, 4, some 10000000000000000000⟩]) (fun _ => 5)
      = (⟨500, .error "value \"10000000000000000000\" is out of range for type bigint"⟩,
         ⟨[⟨"d-1", "d", 1, 43200001, 1⟩], [⟨1, "d-1", 1, 2, 7⟩], 1⟩)
    ∧ reportLocation (sessionStart (Store.empty Int) "d" none 1 1).2
        (.batch [⟨"d-1", 16777217, 2, some 7⟩]) (fun _ => 5)
      = (⟨200, .message "Recorded 1 locations"⟩,
         ⟨[⟨"d-1", "d", 1, 43200001, 1⟩], [⟨1, "d-1", 16777216, 2, 7⟩], 1⟩)
    ∧ reportLocation (⟨[⟨"d-1", "d", 1, 43200001, 1⟩], [], 2147483647⟩ : Store Int)
        (.batch [⟨"d-1", 1, 2, some 7⟩]) (fun _ => 5)
      = (⟨500, .error
            "nextval: reached maximum value of sequence \"locations_id_seq\" (2147483647)"⟩,
         ⟨[⟨"d-1", "d", 1, 43200001, 1⟩], [], 2147483647⟩)
    ∧ reportLocation (⟨[⟨"d-1", "d", 1, 43200001, 1⟩], [⟨1, "d-1", 1, 2, 7⟩], 0⟩ : Store Int)
        (.batch [⟨"d-1", 3, 4, some 8⟩]) (fun _ => 5)
      = (⟨500, .error "duplicate key value violates unique constraint \"locations_pkey\""⟩,
         ⟨[⟨"d-1", "d", 1, 43200001, 1⟩], [⟨1, "d-1", 1, 2, 7⟩], 1⟩) := by
  refine ⟨by decide, by decide, by decide, by decide⟩

/-- Claim C3, amended.  In a well-formed store that holds a session whose id is the
`sessionId` of the first element of a non-empty batch, and whose sequence has room for
the batch, when the columns accept every element (coordinates in the range of `REAL`,
given timestamps in the range of `BIGINT`) and the clock readings are time values, the
report is answered 200 with the count of the batch, the sessions are untouched and the
location table grows by one row per element, in array order, each row under the first
element's session id and with its own element's latitude and longitude as the `REAL`
columns hold them (and its timestamp when that is a non-zero safe integer), whatever
`sessionId` the other elements carry. -/
theorem reportLocation_batch [RealColumn κ] (st : Store κ) (first : Loc κ)
    (rest : List (Loc κ)) (clock : Nat → Int) (hst : st.WellFormed)
    (hroom : st.locations_id_seq + (first :: rest).length ≤ 2147483647)
    (hpresent : ∃ s ∈ st.sessions, s.id = first.sessionId)
    (haccepted : ∀ loc ∈ first :: rest, loc.accepted = true)
    (hclock : ∀ i, IsTimeValue (clock i)) :
    ∃ rows : List (LocationRow κ),
      reportLocation st (.batch (first :: rest)) clock =
        (⟨200, .message ("Recorded " ++ toString (first :: rest).length ++ " locations")⟩,
         ⟨st.sessions, st.locations ++ rows, st.locations_id_seq + (first :: rest).length⟩)
      ∧ List.Forall₂ (RowOf first.sessionId) (first :: rest) rows := by
  have hnul : hasNul first.sessionId = false := by
    obtain ⟨s, hs, e⟩ := hpresent
    rw [← e]
    exact hst.1 s hs
  obtain ⟨rows, hrows, hall⟩ :=
    insertAll_of_present first.sessionId clock hnul hclock (first :: rest) 0 st hpresent
      hst.2 hroom haccepted
  refine ⟨rows, ?_, hall⟩
  have hlen := selectSession_length_ne_zero st first.sessionId hpresent
  simp only [reportLocation, Body.toList, hlen, if_false]
  rw [hrows]

/-- A batch for sessions `d-1` and `B` in a store that holds only session `d-1` and one
point of it: both points are stored under `d-1`, after the point already there. -/
theorem reportLocation_batch_witness :
    ∃ rows : List (LocationRow Int),
      reportLocation (⟨[⟨"d-1", "d", 1, 43200001, 1⟩], [⟨1, "d-1", 1, 2, 3⟩], 1⟩ : Store Int)
          (.batch [⟨"d-1", 1, 2, some 7⟩, ⟨"B", 3, 4, some 8⟩]) (fun _ => 6) =
        (⟨200, .message ("Recorded " ++
            toString ([⟨"d-1", 1, 2, some 7⟩, ⟨"B", 3, 4, some 8⟩] : List (Loc Int)).length
            ++ " locations")⟩,
         ⟨[⟨"d-1", "d", 1, 43200001, 1⟩], [⟨1, "d-1", 1, 2, 3⟩] ++ rows,
          1 + ([⟨"d-1", 1, 2, some 7⟩, ⟨"B", 3, 4, some 8⟩] : List (Loc Int)).length⟩)
      ∧ List.Forall₂ (RowOf "d-1") [⟨"d-1", 1, 2, some 7⟩, ⟨"B", 3, 4, some 8⟩] rows :=
  reportLocation_batch (⟨[⟨"d-1", "d", 1, 43200001, 1⟩], [⟨1, "d-1", 1, 2, 3⟩], 1⟩ : Store Int)
    ⟨"d-1", 1, 2, some 7⟩ [⟨"B", 3, 4, some 8⟩] (fun _ => 6) (by decide) (by decide)
    ⟨⟨"d-1", "d", 1, 43200001, 1⟩, by decide, rfl⟩ (by decide)
    (fun _ => (by decide : IsTimeValue 6))

theorem reportLocation_single_accepted [RealColumn κ] (st : Store κ) (loc : Loc κ)
    (lat lon : κ) (ts : Int) (clock : Nat → Int) (hst : st.WellFormed)
    (hroom : st.locations_id_seq + 1 ≤ 2147483647)
    (hpresent : ∃ s ∈ st.sessions, s.id = loc.sessionId)
    (hlat : RealColumn.store loc.latitude = some lat)
    (hlon : RealColumn.store loc.longitude = some lon)
    (hts : bigintIn (orDefault (loc.timestamp.map jsonNumber) (clock 0)) = .ok ts) :
    (reportLocation st (.single loc) clock).2 =
      ⟨st.sessions, st.locations ++ [⟨st.locations_id_seq + 1, loc.sessionId, lat, lon, ts⟩],
        st.locations_id_seq + 1⟩ := by
  have hnul : hasNul loc.sessionId = false := by
    obtain ⟨s, hs, e⟩ := hpresent
    rw [← e]
    exact hst.1 s hs
  have hlen := selectSession_length_ne_zero st loc.sessionId hpresent
  have hone := insertLocation_accepted st loc.sessionId loc.latitude loc.longitude lat lon
    (orDefault (loc.timestamp.map jsonNumber) (clock 0)) ts hnul hlat hlon hts hroom hst.2
    hpresent
  simp only [reportLocation, Body.toList, hlen, if_false, insertAll, hone]

/-! ## Queries -/

theorem mem_locationsOf (st : Store κ) (sessionId : String) (l : LocationRow κ) :
    l ∈ st.locationsOf sessionId ↔ l ∈ st.locations ∧ l.session_id = sessionId := by
  unfold Store.locationsOf
  rw [(List.perm_insertionSort _ _).mem_iff, List.mem_filter]
  simp

theorem forall₂_map_right {α β : Type} (R : α → β → Prop) (f : α → β)
    (h : ∀ a, R a (f a)) : ∀ l : List α, List.Forall₂ R l (l.map f) := by
  intro l
  induction l with
  | nil => exact List.Forall₂.nil
  | cons a l ih => exact List.Forall₂.cons (h a) ih

/-- Claim C4 as stated fails, in several ways, all in stores that hold session `d-1`
(the first five in the store left by a start of device `d` at time 1).  (1) A location
reported with `timestamp: 0` while the clock reads 5 is stored with timestamp 5, and
the list of the locations of `d-1` holds no point with timestamp 0.  (2) A location
reported with timestamp 7 is listed with the string `7`, the `BIGINT` column as the
driver returns it, not with the number.  (3) The timestamp 9007199254740993 is listed
as 9007199254740992, the double the body parser made of it.  (4) The timestamp
10000000000000000000 is rejected by the `BIGINT` column: the report is answered 500 and
the list is empty.  (5) The latitude 10 ^ 39 is rejected by the `REAL` column, with the
same outcome.  (6) When the sequence of `locations.id` has handed out 2147483647, and
(7) when the table holds a row with the id the sequence hands out next, the report is
answered 500 and the point is not listed. -/
theorem timestamp_zero_replaced :
    ((sessionStart (Store.empty Int) "d" none 1 1).2.sessions
        = [⟨"d-1", "d", 1, 43200001, 1⟩]
      ∧ (listLocations (reportLocation (sessionStart (Store.empty Int) "d" none 1 1).2
          (.single ⟨"d-1", 10, 20, some 0⟩) (fun _ => 5)).2 "d-1").1
        = ⟨200, .locations [⟨1, "d-1", some 10, some 20, "5"⟩]⟩
      ∧ ¬ ∃ rows : List (LocationView Int),
          (listLocations (reportLocation (sessionStart (Store.empty Int) "d" none 1 1).2
            (.single ⟨"d-1", 10, 20, some 0⟩) (fun _ => 5)).2 "d-1").1
              = ⟨200, .locations rows⟩
          ∧ ∃ p ∈ rows, p.timestamp = toString (0 : Int))
    ∧ (listLocations (reportLocation (sessionStart (Store.empty Int) "d" none 1 1).2
          (.single ⟨"d-1", 10, 20, some 7⟩) (fun _ => 5)).2 "d-1").1
        = ⟨200, .locations [⟨1, "d-1", some 10, some 20, "7"⟩]⟩
    ∧ (listLocations (reportLocation (sessionStart (Store.empty Int) "d" none 1 1).2
          (.single ⟨"d-1", 10, 20, some 9007199254740993⟩) (fun _ => 5)).2 "d-1").1
        = ⟨200, .locations [⟨1, "d-1", some 10, some 20, "9007199254740992"⟩]⟩
    ∧ ((reportLocation (sessionStart (Store.empty Int) "d" none 1 1).2
          (.single ⟨"d-1", 10, 20, some 10000000000000000000⟩) (fun _ => 5)).1
        = ⟨500, .error "value \"10000000000000000000\" is out of range for type bigint"⟩
      ∧ (listLocations (reportLocation (sessionStart (Store.empty Int) "d" none 1 1).2
          (.single ⟨"d-1", 10, 20, some 10000000000000000000⟩) (fun _ => 5)).2 "d-1").1
        = ⟨200, .locations []⟩)
    ∧ ((reportLocation (sessionStart (Store.empty Int) "d" none 1 1).2
          (.single ⟨"d-1", 10 ^ 39, 20, some 7⟩) (fun _ => 5)).1
        = ⟨500, .error "\"1e+39\" is out of range for type real"⟩
      ∧ (listLocations (reportLocation (sessionStart (Store.empty Int) "d" none 1 1).2
          (.single ⟨"d-1", 10 ^ 39, 20, some 7⟩) (fun _ => 5)).2 "d-1").1
        = ⟨200, .locations []⟩)
    ∧ ((reportLocation (⟨[⟨"d-1", "d", 1, 43200001, 1⟩], [], 2147483647⟩ : Store Int)
          (.single ⟨"d-1", 10, 20, some 7⟩) (fun _ => 5)).1.status = 500
      ∧ (listLocations (reportLocation
          (⟨[⟨"d-1", "d", 1, 43200001, 1⟩], [], 2147483647⟩ : Store Int)
          (.single ⟨"d-1", 10, 20, some 7⟩) (fun _ => 5)).2 "d-1").1
        = ⟨200, .locations []⟩)
    ∧ ((reportLocation (⟨[⟨"d-1", "d", 1, 43200001, 1⟩], [⟨1, "d-1", 1, 2, 3⟩], 0⟩ : Store Int)
          (.single ⟨"d-1", 10, 20, some 7⟩) (fun _ => 5)).1.status = 500
      ∧ (listLocations (reportLocation
          (⟨[⟨"d-1", "d", 1, 43200001, 1⟩], [⟨1, "d-1", 1, 2, 3⟩], 0⟩ : Store Int)
          (.single ⟨"d-1", 10, 20, some 7⟩) (fun _ => 5)).2 "d-1").1
        = ⟨200, .locations [⟨1, "d-1", some 1, some 2, "3"⟩]⟩) := by
  have h : (listLocations (reportLocation (sessionStart (Store.empty Int) "d" none 1 1).2
        (.single ⟨"d-1", 10, 20, some 0⟩) (fun _ => 5)).2 "d-1").1
      = ⟨200, .locations [⟨1, "d-1", some 10, some 20, "5"⟩]⟩ := by decide
  refine ⟨⟨by decide, h, ?_⟩, by decide, by decide, ⟨by decide, by decide⟩,
    ⟨by decide, by decide⟩, ⟨by decide, by decide⟩, ⟨by decide, by decide⟩⟩
  rintro ⟨rows, hr, p, hp, h0⟩
  rw [h] at hr
  injection hr with _ hb
  injection hb with hrows
  subst hrows
  simp at hp
  subst hp
  exact absurd h0 (by decide)

/-- Claim C4, amended.  In a well-formed store that holds session `S` and whose
sequence has room for one row, after a location `{sessionId: S, latitude, longitude,
timestamp: t}` is reported, with `t` a non-zero safe integer and coordinates in the
range of `REAL`, whatever the clock reads, the list of the locations of `S` holds a
point of `S` whose timestamp is the decimal string of `t`. -/
theorem timestamp_roundtrip [RealColumn κ] (st : Store κ) (S : String)
    (latitude longitude : κ) (t : Int) (clock : Nat → Int) (hst : st.WellFormed)
    (hroom : st.locations_id_seq + 1 ≤ 2147483647)
    (hpresent : ∃ s ∈ st.sessions, s.id = S)
    (hlat : (RealColumn.store latitude).isSome = true)
    (hlon : (RealColumn.store longitude).isSome = true)
    (ht : t ≠ 0) (hsafe : IsSafeInteger t) :
    ∃ rows : List (LocationView κ),
      (listLocations (reportLocation st (.single ⟨S, latitude, longitude, some t⟩) clock).2 S).1
        = ⟨200, .locations rows⟩
      ∧ ∃ p ∈ rows, p.sessionId = S ∧ p.timestamp = toString t := by
  obtain ⟨lat, hlat⟩ := Option.isSome_iff_exists.1 hlat
  obtain ⟨lon, hlon⟩ := Option.isSome_iff_exists.1 hlon
  have hts : bigintIn (orDefault ((some t).map jsonNumber) (clock 0)) = .ok t := by
    simp [orDefault, jsonNumber_of_safe t hsafe, ht, bigintIn_of_safe t hsafe]
  refine ⟨_, rfl, ?_⟩
  rw [reportLocation_single_accepted st ⟨S, latitude, longitude, some t⟩ lat lon t clock hst
    hroom hpresent hlat hlon hts]
  refine ⟨LocationRow.toView ⟨st.locations_id_seq + 1, S, lat, lon, t⟩, ?_, rfl, rfl⟩
  apply List.mem_map_of_mem
  rw [mem_locationsOf]
  exact ⟨by simp, rfl⟩

/-- A location with timestamp 1700000000007 reported to session `d-1`, which already has
a point, while the clock reads 5. -/
theorem timestamp_roundtrip_witness :
    ∃ rows : List (LocationView Int),
      (listLocations (reportLocation
          (⟨[⟨"d-1", "d", 1, 43200001, 1⟩], [⟨1, "d-1", 1, 2, 3⟩], 1⟩ : Store Int)
          (.single ⟨"d-1", 10, 20, some 1700000000007⟩) (fun _ => 5)).2 "d-1").1
        = ⟨200, .locations rows⟩
      ∧ ∃ p ∈ rows, p.sessionId = "d-1" ∧ p.timestamp = toString (1700000000007 : Int) :=
  timestamp_roundtrip (⟨[⟨"d-1", "d", 1, 43200001, 1⟩], [⟨1, "d-1", 1, 2, 3⟩], 1⟩ : Store Int)
    "d-1" 10 20 1700000000007 (fun _ => 5) (by decide) (by decide)
    ⟨⟨"d-1", "d", 1, 43200001, 1⟩, by decide, rfl⟩ (by decide) (by decide) (by decide)
    (by decide)

/-- Claim C5.  The list-sessions query answers 200 and leaves the store as it was.  Its
rows are, one for one and in order, the session rows of the store in some order in
which `start_time` is non-increasing from first to last; each answer row carries the
columns of its session row as `id, deviceId, startTime, endTime, isActive`, the two
`BIGINT` columns as decimal strings. -/
theorem listSessions_sorted (st : Store κ) :
    ∃ (sorted : List SessionRow) (rows : List SessionView),
      listSessions st = (⟨200, .sessions rows⟩, st)
      ∧ sorted.Perm st.sessions
      ∧ sorted.Pairwise (fun a b => b.start_time ≤ a.start_time)
      ∧ List.Forall₂ SessionShown sorted rows := by
  haveI : IsTotal SessionRow (fun a b => b.start_time ≤ a.start_time) :=
    ⟨fun a b => le_total b.start_time a.start_time⟩
  haveI : IsTrans SessionRow (fun a b => b.start_time ≤ a.start_time) :=
    ⟨fun _ _ _ hab hbc => le_trans hbc hab⟩
  refine ⟨st.sessionsByStartDesc, _, rfl, ?_, ?_, ?_⟩
  · exact List.perm_insertionSort _ _
  · exact List.sorted_insertionSort (fun a b : SessionRow => b.start_time ≤ a.start_time)
      st.sessions
  · exact forall₂_map_right SessionShown SessionRow.toView
      (fun s => ⟨rfl, rfl, rfl, rfl, rfl⟩) _

/-- Claim C6.  For every session identifier, of a session of the store or not, the
list-locations query answers 200 and leaves the store as it was.  Its rows are, one for
one and in order, the location rows of the store whose session id is that identifier,
in some order in which `timestamp` is non-decreasing from first to last; each answer
row carries the columns of its location row (`id`, `sessionId`, the coordinates as read
back from the `REAL` columns, the timestamp as a decimal string).  The answer is the
empty list exactly when no location row has that session id. -/
theorem listLocations_sorted [RealColumn κ] (st : Store κ) (sessionId : String) :
    ∃ (sorted : List (LocationRow κ)) (rows : List (LocationView κ)),
      listLocations st sessionId = (⟨200, .locations rows⟩, st)
      ∧ sorted.Perm (st.locations.filter (fun l => decide (l.session_id = sessionId)))
      ∧ sorted.Pairwise (fun a b => a.timestamp ≤ b.timestamp)
      ∧ List.Forall₂ LocationShown sorted rows
      ∧ (rows = [] ↔ ∀ l ∈ st.locations, l.session_id ≠ sessionId) := by
  haveI : IsTotal (LocationRow κ) (fun a b => a.timestamp ≤ b.timestamp) :=
    ⟨fun a b => le_total a.timestamp b.timestamp⟩
  haveI : IsTrans (LocationRow κ) (fun a b => a.timestamp ≤ b.timestamp) :=
    ⟨fun _ _ _ hab hbc => le_trans hab hbc⟩
  refine ⟨st.locationsOf sessionId, _, rfl, ?_, ?_, ?_, ?_⟩
  · exact List.perm_insertionSort _ _
  · exact List.sorted_insertionSort (fun a b : LocationRow κ => a.timestamp ≤ b.timestamp) _
  · exact forall₂_map_right LocationShown LocationRow.toView
      (fun l => ⟨rfl, rfl, rfl, rfl, rfl⟩) _
  · rw [List.map_eq_nil_iff, List.eq_nil_iff_forall_not_mem]
    constructor
    · intro h l hl e
      exact h l ((mem_locationsOf st sessionId l).2 ⟨hl, e⟩)
    · intro h l hl
      exact h l ((mem_locationsOf st sessionId l).1 hl).1 ((mem_locationsOf st sessionId l).1 hl).2

/-! ## Invariants of the store -/

theorem insertLocation_cases [RealColumn κ] (st : Store κ) (sessionId : String)
    (latitude longitude : κ) (timestamp : Int) :
    (∃ n : Nat, st.locations_id_seq ≤ n ∧
        (st.insertLocation sessionId latitude longitude timestamp).2 =
          { st with locations_id_seq := n })
      ∨ ∃ row : LocationRow κ, row.session_id = sessionId ∧ row.id = st.locations_id_seq + 1
          ∧ (∃ s ∈ st.sessions, s.id = sessionId)
          ∧ (st.insertLocation sessionId latitude longitude timestamp).2 =
              ⟨st.sessions, st.locations ++ [row], st.locations_id_seq + 1⟩ := by
  unfold Store.insertLocation
  by_cases hn : hasNul sessionId = true
  · rw [if_pos hn]
    exact Or.inl ⟨_, Nat.le_refl _, rfl⟩
  · rw [if_neg hn]
    cases RealColumn.store latitude with
    | none => exact Or.inl ⟨_, Nat.le_refl _, rfl⟩
    | some lat =>
      cases RealColumn.store longitude with
      | none => exact Or.inl ⟨_, Nat.le_refl _, rfl⟩
      | some lon =>
        cases bigintIn timestamp with
        | error err => exact Or.inl ⟨_, Nat.le_refl _, rfl⟩
        | ok ts =>
          by_cases hmax : 2147483647 < st.locations_id_seq + 1
          · simp only [if_pos hmax]
            exact Or.inl ⟨_, Nat.le_refl _, rfl⟩
          · by_cases hid : st.locations.any
                (fun l => decide (l.id = st.locations_id_seq + 1)) = true
            · simp only [if_neg hmax, hid, if_true]
              exact Or.inl ⟨_, Nat.le_succ _, rfl⟩
            · by_cases hfk : st.sessions.any (fun s => decide (s.id = sessionId)) = true
              · simp only [if_neg hmax, hid, hfk, if_true]
                refine Or.inr ⟨⟨st.locations_id_seq + 1, sessionId, lat, lon, ts⟩, rfl, rfl,
                  ?_, rfl⟩
                rw [List.any_eq_true] at hfk
                obtain ⟨s, hs, e⟩ := hfk
                exact ⟨s, hs, by simpa using e⟩
              · simp only [if_neg hmax, hid, hfk]
                exact Or.inl ⟨_, Nat.le_succ _, rfl⟩

theorem insertLocation_sessions [RealColumn κ] (st : Store κ) (sessionId : String)
    (latitude longitude : κ) (timestamp : Int) :
    (st.insertLocation sessionId latitude longitude timestamp).2.sessions = st.sessions := by
  rcases insertLocation_cases st sessionId latitude longitude timestamp with
    ⟨n, _, h⟩ | ⟨row, _, _, _, h⟩ <;> rw [h]

theorem insertLocation_refIntegrity [RealColumn κ] (st : Store κ) (sessionId : String)
    (latitude longitude : κ) (timestamp : Int) (hst : st.RefIntegrity) :
    (st.insertLocation sessionId latitude longitude timestamp).2.RefIntegrity := by
  rcases insertLocation_cases st sessionId latitude longitude timestamp with
    ⟨n, _, h⟩ | ⟨row, hrow, _, hs, h⟩
  · rw [h]
    exact hst
  · rw [h]
    intro l hl
    rcases List.mem_append.1 hl with hl | hl
    · exact hst l hl
    · simp only [List.mem_singleton] at hl
      subst hl
      obtain ⟨s, hs, e⟩ := hs
      exact ⟨s, hs, by rw [e, hrow]⟩

theorem insertAll_sessions [RealColumn κ] (sessionId : String) (clock : Nat → Int) :
    ∀ (locs : List (Loc κ)) (i : Nat) (st : Store κ),
      (insertAll sessionId clock i locs st).2.sessions = st.sessions := by
  intro locs
  induction locs with
  | nil => intro i st; rfl
  | cons loc rest ih =>
    intro i st
    have hs := insertLocation_sessions st sessionId loc.latitude loc.longitude
      (orDefault (loc.timestamp.map jsonNumber) (clock i))
    simp only [insertAll]
    split
    · rename_i st' heq
      rw [heq] at hs
      rw [ih]
      exact hs
    · rename_i err st' heq
      rw [heq] at hs
      exact hs

theorem insertAll_refIntegrity [RealColumn κ] (sessionId : String) (clock : Nat → Int) :
    ∀ (locs : List (Loc κ)) (i : Nat) (st : Store κ),
      st.RefIntegrity → (insertAll sessionId clock i locs st).2.RefIntegrity := by
  intro locs
  induction locs with
  | nil => intro i st h; exact h
  | cons loc rest ih =>
    intro i st hst
    have hs := insertLocation_refIntegrity st sessionId loc.latitude loc.longitude
      (orDefault (loc.timestamp.map jsonNumber) (clock i)) hst
    simp only [insertAll]
    split
    · rename_i st' heq
      rw [heq] at hs
      exact ih (i + 1) st' hs
    · rename_i err st' heq
      rw [heq] at hs
      exact hs

theorem reportLocation_sessions [RealColumn κ] (st : Store κ) (body : Body κ)
    (clock : Nat → Int) : (reportLocation st body clock).2.sessions = st.sessions := by
  unfold reportLocation
  cases hb : body.toList with
  | nil => rfl
  | cons first rest =>
    simp only
    split
    · rfl
    · have hs := insertAll_sessions first.sessionId clock (first :: rest) 0 st
      split <;> rename_i heq <;> rw [heq] at hs <;> exact hs

theorem reportLocation_refIntegrity [RealColumn κ] (st : Store κ) (body : Body κ)
    (clock : Nat → Int) (hst : st.RefIntegrity) :
    (reportLocation st body clock).2.RefIntegrity := by
  unfold reportLocation
  cases hb : body.toList with
  | nil => exact hst
  | cons first rest =>
    simp only
    split
    · exact hst
    · have hs := insertAll_refIntegrity first.sessionId clock (first :: rest) 0 st hst
      split <;> rename_i heq <;> rw [heq] at hs <;> exact hs

theorem sessionStart_sessions (st : Store κ) (deviceId : String) (duration : Option Int)
    (now₀ now₁ : Int) :
    (sessionStart st deviceId duration now₀ now₁).2 = st
      ∨ ∃ row : SessionRow, row.is_active = 1 ∧ hasNul row.id = false ∧
          (sessionStart st deviceId duration now₀ now₁).2 =
            { st with sessions := st.sessions ++ [row] } := by
  simp only [sessionStart]
  rcases insertSession_sessions st (mkSessionId deviceId now₀) deviceId now₁
      (jsAdd now₁ (orDefault (duration.map jsonNumber) (12 * 60 * 60 * 1000))) with
    ⟨err, h⟩ | ⟨row, hact, hid, hnul, h⟩
  · left
    rw [h]
  · right
    refine ⟨row, hact, by rw [hid]; exact hnul, ?_⟩
    rw [h]

theorem handle_refIntegrity [RealColumn κ] (st : Store κ) (clock : Nat → Int)
    (r : Request κ) (hst : st.RefIntegrity) : (handle st clock r).2.RefIntegrity := by
  cases r with
  | health => exact hst
  | start deviceId duration =>
    rcases sessionStart_sessions st deviceId duration (clock 0) (clock 1) with
      h | ⟨row, _, _, h⟩
    · simp only [handle]
      rw [h]
      exact hst
    · simp only [handle]
      rw [h]
      intro l hl
      obtain ⟨s, hs, e⟩ := hst l hl
      exact ⟨s, List.mem_append_left _ hs, e⟩
  | stop sessionId =>
    intro l hl
    obtain ⟨s, hs, e⟩ := hst l hl
    refine ⟨if s.id = sessionId then { s with is_active := 0 } else s, ?_, ?_⟩
    · exact List.mem_map_of_mem _ hs
    · split <;> exact e
  | location body => exact reportLocation_refIntegrity st body clock hst
  | sessions => exact hst
  | locations sessionId => exact hst

/-- Claim C9.  In every store reachable from the empty store by any sequence of
requests (start, stop, location report, queries, health), every location row's session
id is the id of a session row present in the store. -/
theorem reachable_refIntegrity [RealColumn κ] (st : Store κ) (h : Reachable st) :
    st.RefIntegrity := by
  induction h with
  | init => intro l hl; exact absurd hl (List.not_mem_nil l)
  | step st clock r _ ih => exact handle_refIntegrity st clock r ih

/-- The store after a start of device `a` at time 5 and a location reported to session
`a-5` holds one location row, and that row references session `a-5`. -/
theorem reachable_refIntegrity_witness :
    (handle (handle (Store.empty Int) (fun _ => 5) (.start "a" none)).2 (fun _ => 6)
        (.location (.single ⟨"a-5", 1, 2, none⟩))).2.locations = [⟨1, "a-5", 1, 2, 6⟩]
    ∧ (handle (handle (Store.empty Int) (fun _ => 5) (.start "a" none)).2 (fun _ => 6)
        (.location (.single ⟨"a-5", 1, 2, none⟩))).2.RefIntegrity :=
  ⟨by decide,
   reachable_refIntegrity _ (Reachable.step _ _ _ (Reachable.step _ _ _ Reachable.init))⟩

theorem forall₂_kept_refl (r : Request κ) (l : List SessionRow) :
    List.Forall₂ (Kept r) l l := by
  induction l with
  | nil => exact List.Forall₂.nil
  | cons s l ih => exact List.Forall₂.cons ⟨rfl, rfl, rfl, rfl, Or.inl rfl⟩ ih

theorem forall₂_kept_stop (sessionId : String) (l : List SessionRow) :
    List.Forall₂ (Kept (.stop sessionId : Request κ)) l
      (l.map (fun s => if s.id = sessionId then { s with is_active := 0 } else s)) := by
  induction l with
  | nil => exact List.Forall₂.nil
  | cons s l ih =>
    refine List.Forall₂.cons ?_ ih
    show Kept (.stop sessionId) s (if s.id = sessionId then { s with is_active := 0 } else s)
    by_cases h : s.id = sessionId
    · rw [if_pos h]
      refine ⟨rfl, rfl, rfl, rfl, ?_⟩
      by_cases h0 : s.is_active = 0
      · exact Or.inl h0.symm
      · exact Or.inr ⟨h0, rfl, by rw [h]⟩
    · rw [if_neg h]
      exact ⟨rfl, rfl, rfl, rfl, Or.inl rfl⟩

/-- Claim C10.  For every store and every request, the session table after the request
is the session table before it, row by row in the same order, followed by the rows the
request added: no row is removed, each row keeps its id, device id, start time and end
time, and its active flag is unchanged or has gone from non-zero (1 is the only
non-zero value the handlers write) to 0, the latter only when the request is the stop
naming that row's id. -/
theorem handle_lifecycle [RealColumn κ] (st : Store κ) (clock : Nat → Int) (r : Request κ) :
    ∃ kept added : List SessionRow,
      (handle st clock r).2.sessions = kept ++ added
      ∧ List.Forall₂ (Kept r) st.sessions kept := by
  cases r with
  | health => exact ⟨st.sessions, [], by simp [handle, health], forall₂_kept_refl _ _⟩
  | start deviceId duration =>
    rcases sessionStart_sessions st deviceId duration (clock 0) (clock 1) with
      h | ⟨row, _, _, h⟩
    · exact ⟨st.sessions, [], by simp [handle, h], forall₂_kept_refl _ _⟩
    · exact ⟨st.sessions, [row], by simp [handle, h], forall₂_kept_refl _ _⟩
  | stop sessionId =>
    exact ⟨_, [], by simp [handle, sessionStop, Store.stopSession],
      forall₂_kept_stop sessionId st.sessions⟩
  | location body =>
    exact ⟨st.sessions, [], by simp [handle, reportLocation_sessions],
      forall₂_kept_refl _ _⟩
  | sessions => exact ⟨st.sessions, [], by simp [handle, listSessions], forall₂_kept_refl _ _⟩
  | locations sessionId =>
    exact ⟨st.sessions, [], by simp [handle, listLocations], forall₂_kept_refl _ _⟩

/-- In a reachable store every active flag is 0 or 1. -/
theorem reachable_flags [RealColumn κ] (st : Store κ) (h : Reachable st) :
    ∀ s ∈ st.sessions, s.is_active = 0 ∨ s.is_active = 1 := by
  induction h with
  | init => intro s hs; exact absurd hs (List.not_mem_nil s)
  | step st clock r _ ih =>
    cases r with
    | health => exact ih
    | start deviceId duration =>
      rcases sessionStart_sessions st deviceId duration (clock 0) (clock 1) with
        h | ⟨row, hr, _, h⟩
      · simp only [handle]
        rw [h]
        exact ih
      · simp only [handle]
        rw [h]
        intro s hs
        rcases List.mem_append.1 hs with hs | hs
        · exact ih s hs
        · simp at hs
          subst hs
          exact Or.inr hr
    | stop sessionId =>
      intro s hs
      simp only [handle, sessionStop, Store.stopSession, List.mem_map] at hs
      obtain ⟨s₀, hs₀, e⟩ := hs
      by_cases hid : s₀.id = sessionId
      · simp only [hid, if_true] at e
        subst e
        exact Or.inl rfl
      · simp only [hid, if_false] at e
        subst e
        exact ih s₀ hs₀
    | location body =>
      intro s hs
      simp only [handle, reportLocation_sessions] at hs
      exact ih s hs
    | sessions => exact ih
    | locations sessionId => exact ih

theorem insertAll_wellFormed [RealColumn κ] (sessionId : String) (clock : Nat → Int) :
    ∀ (locs : List (Loc κ)) (i : Nat) (st : Store κ),
      st.WellFormed → (insertAll sessionId clock i locs st).2.WellFormed := by
  intro locs
  induction locs with
  | nil => intro i st h; exact h
  | cons loc rest ih =>
    intro i st hst
    have hs : (st.insertLocation sessionId loc.latitude loc.longitude
        (orDefault (loc.timestamp.map jsonNumber) (clock i))).2.WellFormed := by
      rcases insertLocation_cases st sessionId loc.latitude loc.longitude
          (orDefault (loc.timestamp.map jsonNumber) (clock i)) with
        ⟨n, hn, h⟩ | ⟨row, _, hid, _, h⟩
      · rw [h]
        exact ⟨hst.1, fun l hl => Nat.le_trans (hst.2 l hl) hn⟩
      · rw [h]
        refine ⟨hst.1, ?_⟩
        intro l hl
        rcases List.mem_append.1 hl with hl | hl
        · exact Nat.le_succ_of_le (hst.2 l hl)
        · simp only [List.mem_singleton] at hl
          subst hl
          exact Nat.le_of_eq hid
    simp only [insertAll]
    split
    · rename_i st' heq
      rw [heq] at hs
      exact ih (i + 1) st' hs
    · rename_i err st' heq
      rw [heq] at hs
      exact hs

/-- Every reachable store is well formed. -/
theorem reachable_wellFormed [RealColumn κ] (st : Store κ) (h : Reachable st) :
    st.WellFormed := by
  induction h with
  | init =>
    exact ⟨fun s hs => absurd hs (List.not_mem_nil s), fun l hl => absurd hl (List.not_mem_nil l)⟩
  | step st clock r _ ih =>
    cases r with
    | health => exact ih
    | start deviceId duration =>
      rcases sessionStart_sessions st deviceId duration (clock 0) (clock 1) with
        h | ⟨row, _, hnul, h⟩
      · simp only [handle]
        rw [h]
        exact ih
      · simp only [handle]
        rw [h]
        refine ⟨?_, ih.2⟩
        intro s hs
        rcases List.mem_append.1 hs with hs | hs
        · exact ih.1 s hs
        · simp only [List.mem_singleton] at hs
          subst hs
          exact hnul
    | stop sessionId =>
      refine ⟨?_, ih.2⟩
      intro s hs
      simp only [handle, sessionStop, Store.stopSession, List.mem_map] at hs
      obtain ⟨s₀, hs₀, e⟩ := hs
      by_cases hid : s₀.id = sessionId
      · simp only [hid, if_true] at e
        subst e
        have := ih.1 s₀ hs₀
        rw [hid] at this
        exact this
      · simp only [hid, if_false] at e
        subst e
        exact ih.1 s₀ hs₀
    | location body =>
      simp only [handle]
      unfold reportLocation
      cases hb : body.toList with
      | nil => exact ih
      | cons first rest =>
        simp only
        split
        · exact ih
        · have hs := insertAll_wellFormed first.sessionId clock (first :: rest) 0 st ih
          split <;> rename_i heq <;> rw [heq] at hs <;> exact hs
    | sessions => exact ih
    | locations sessionId => exact ih

end Locus
